import Mathlib

/-!
Shallow embedding of the event-normalization and conversation-reconstruction
pipeline of the `agentic-adios` telemetry analyzer, together with proofs about
its behaviour.

The embedding follows the Python sources:
* `telemetry_analyzer/telemetry_analyzer/unified_analyzer.py`
  (`UnifiedTelemetryAnalyzer`: `_extract_timestamp`, `_extract_attributes`,
  `analyze_conversation_flow`, `_process_conversation_turns`,
  `_is_user_prompt` and friends, `_update_token_usage`,
  `_calculate_flow_statistics`, `_load_file`),
* `telemetry_analyzer/analyzer.py` (`parse_log_record`, `format_timestamp`),
* `claude_telemetry/claude-telemetry-analyzer/.../analyzer.py` (`parse_jsonl`).

Python `datetime` instants are modelled as rational numbers of seconds since
the epoch; numeric tower arithmetic (`/ 1e9` and friends) is modelled exactly
in `ℚ`.  Python dictionaries are modelled as association lists with
first-match lookup, kept key-unique by an insert-or-replace update, which
matches CPython dict semantics (assignment to an existing key replaces the
value in place, a new key is appended).
-/

/-- Scalar attribute value: a JSON-ish scalar as stored in the analyzer's
flat attribute dictionaries (`Dict[str, Any]` restricted to the scalar
shapes the extractors produce). -/
inductive AttrValue where
  | str (s : String)
  | int (n : Int)
  | float (q : ℚ)
  | bool (b : Bool)
  deriving DecidableEq

instance : BEq AttrValue := ⟨fun a b => decide (a = b)⟩

instance : LawfulBEq AttrValue where
  eq_of_beq h := of_decide_eq_true h
  rfl := by intro a; simp [BEq.beq]

/-- One entry of an event's `logs` list.  The Python code only ever reads
`log.get('message', '')`, so a log entry is modelled by its message string
(an entry without a `message` key behaves as the empty string). -/
structure LogEntry where
  message : String
  deriving DecidableEq

/-- Mirrors the `TelemetryEvent` dataclass of `unified_analyzer.py`.
`timestamp` is the comparable instant (seconds since epoch, exact). -/
structure TelemetryEvent where
  timestamp : ℚ
  event_type : String
  agent_type : String
  span_id : Option String := none
  trace_id : Option String := none
  parent_span_id : Option String := none
  service_name : String := "unknown"
  operation_name : Option String := none
  attributes : List (String × AttrValue) := []
  logs : List LogEntry := []
  deriving DecidableEq

/-- Tool-call record built by `_extract_tool_call`. The `{}` default of
`tool.inputs` is modelled as `none`. -/
structure ToolCall where
  name : AttrValue
  inputs : Option AttrValue
  timestamp : ℚ
  log_message : Option String := none
  deriving DecidableEq

/-- Tool-result record built by `_extract_tool_result`. -/
structure ToolResult where
  result : AttrValue
  success : AttrValue
  timestamp : ℚ
  log_message : Option String := none
  deriving DecidableEq

/-- Mirrors the `ConversationTurn` dataclass. `user_prompt` and
`assistant_response` hold whatever scalar the extractors return (the Python
fields are dynamically typed). -/
structure ConversationTurn where
  turn_id : Nat
  agent_type : String
  user_prompt : Option AttrValue := none
  assistant_response : Option AttrValue := none
  tool_calls : List ToolCall := []
  tool_results : List ToolResult := []
  timestamp : Option ℚ := none
  duration_ms : Option ℚ := none
  token_usage : List (String × Int) := []
  cost_estimate : Option ℚ := none
  errors : List String := []
  deriving DecidableEq

/-- Python-dict style keyed assignment on an association list:
`m[k] = v` replaces the value of an existing key in place and appends a
fresh key at the end. Lists built from `[]` by `dictInsert` stay key-unique,
so `List.lookup` (first match) agrees with dict lookup. -/
def dictInsert {α β : Type} [BEq α] (m : List (α × β)) (k : α) (v : β) :
    List (α × β) :=
  if m.any (fun p => p.1 == k) then
    m.map (fun p => if p.1 == k then (k, v) else p)
  else
    m ++ [(k, v)]

/-- Python `dict.update`: fold `dictInsert` over the entries of the source. -/
def dictUpdate {α β : Type} [BEq α] (m src : List (α × β)) : List (α × β) :=
  src.foldl (fun acc p => dictInsert acc p.1 p.2) m

/-- Python `defaultdict(int)` accumulation `m[k] += v`: a missing key reads
as `0`. -/
def dictAdd {α : Type} [BEq α] (m : List (α × Int)) (k : α) (v : Int) :
    List (α × Int) :=
  dictInsert m k (((m.lookup k).getD 0) + v)

/-- Membership test `k in d` on the attribute dictionary of an event. -/
def hasAttr (e : TelemetryEvent) (k : String) : Bool :=
  (e.attributes.lookup k).isSome

/-- Dictionary lookup `d.get(k)` on the attribute dictionary of an event. -/
def getAttr (e : TelemetryEvent) (k : String) : Option AttrValue :=
  e.attributes.lookup k

/-- Boolean test that `pat` occurs as a leading segment of `l`. -/
def leadsWith : List Char → List Char → Bool
  | [], _ => true
  | _ :: _, [] => false
  | a :: as, b :: bs => a == b && leadsWith as bs

/-- Boolean test that `pat` occurs as a contiguous segment of `l`; models the
Python substring operator `pat in s`. -/
def containsSeq (pat : List Char) : List Char → Bool
  | [] => pat.isEmpty
  | b :: bs => leadsWith pat (b :: bs) || containsSeq pat bs

/-- Python `pat in message.lower()` over one log entry; lower-casing is
applied character-wise (the messages and patterns involved are ASCII, where
`Char.toLower` agrees with Python `str.lower`). -/
def logMentions (l : LogEntry) (pat : String) : Bool :=
  containsSeq pat.toList (l.message.toList.map Char.toLower)

/-- Python `any(pat in log.get('message','').lower() for log in event.logs)`. -/
def anyLogMentions (e : TelemetryEvent) (pat : String) : Bool :=
  e.logs.any (fun l => logMentions l pat)

/-- Mirrors `_is_user_prompt`. -/
def isUserPrompt (e : TelemetryEvent) : Bool :=
  hasAttr e "user.prompt" ||
  hasAttr e "prompt" ||
  e.operation_name == some "user_prompt" ||
  anyLogMentions e "prompt"

/-- Mirrors `_is_assistant_response`. -/
def isAssistantResponse (e : TelemetryEvent) : Bool :=
  hasAttr e "assistant.response" ||
  hasAttr e "response" ||
  e.operation_name == some "assistant_response" ||
  anyLogMentions e "response"

/-- Mirrors `_is_tool_call`. -/
def isToolCall (e : TelemetryEvent) : Bool :=
  hasAttr e "tool.name" ||
  e.operation_name == some "tool_call" ||
  anyLogMentions e "tool"

/-- Mirrors `_is_tool_result`. -/
def isToolResult (e : TelemetryEvent) : Bool :=
  hasAttr e "tool.result" ||
  e.operation_name == some "tool_result" ||
  anyLogMentions e "result"

/-- Mirrors `_extract_user_prompt`: prefer the `user.prompt` attribute, then
`prompt`, then the first log message mentioning "prompt". -/
def extractUserPrompt (e : TelemetryEvent) : Option AttrValue :=
  match getAttr e "user.prompt" with
  | some v => some v
  | none =>
    match getAttr e "prompt" with
    | some v => some v
    | none => (e.logs.find? (fun l => logMentions l "prompt")).map
        (fun l => .str l.message)

/-- Mirrors `_extract_assistant_response`. -/
def extractAssistantResponse (e : TelemetryEvent) : Option AttrValue :=
  match getAttr e "assistant.response" with
  | some v => some v
  | none =>
    match getAttr e "response" with
    | some v => some v
    | none => (e.logs.find? (fun l => logMentions l "response")).map
        (fun l => .str l.message)

/-- Mirrors `_extract_tool_call`; the loop over logs keeps the last matching
message (plain assignment, no break). The returned dictionary is never empty,
so the caller's `if tool_call:` guard always passes. -/
def extractToolCall (e : TelemetryEvent) : ToolCall :=
  { name := (getAttr e "tool.name").getD (.str "unknown")
    inputs := getAttr e "tool.inputs"
    timestamp := e.timestamp
    log_message := e.logs.foldl
      (fun acc l => if logMentions l "tool" then some l.message else acc) none }

/-- Mirrors `_extract_tool_result`. -/
def extractToolResult (e : TelemetryEvent) : ToolResult :=
  { result := (getAttr e "tool.result").getD (.str "unknown")
    success := (getAttr e "tool.success").getD (.bool true)
    timestamp := e.timestamp
    log_message := e.logs.foldl
      (fun acc l => if logMentions l "result" then some l.message else acc) none }

/-- Mirrors `_update_token_usage`: each of `tokens.input` / `tokens.output` /
`tokens.total`, when present, is ASSIGNED (not added) into the per-turn
`token_usage` dictionary. The dataclass declares `token_usage : Dict[str, int]`;
only integer-valued token attributes are modelled (a non-integer value would
make the later `+=` aggregation raise a `TypeError` in Python). -/
def updateTokenUsage (turn : ConversationTurn) (e : TelemetryEvent) :
    ConversationTurn :=
  let t1 := match getAttr e "tokens.input" with
    | some (.int n) => { turn with token_usage := dictInsert turn.token_usage "input" n }
    | _ => turn
  let t2 := match getAttr e "tokens.output" with
    | some (.int n) => { t1 with token_usage := dictInsert t1.token_usage "output" n }
    | _ => t1
  match getAttr e "tokens.total" with
  | some (.int n) => { t2 with token_usage := dictInsert t2.token_usage "total" n }
  | _ => t2

/-- The loop state of `_process_conversation_turns`: the open turn (if any),
the turn counter, and the turns already appended to the flow. -/
structure SegState where
  cur : Option ConversationTurn
  counter : Nat
  acc : List ConversationTurn
  deriving DecidableEq

/-- One iteration of the loop body of `_process_conversation_turns`:
the `if`/`elif` classification chain followed by the unconditional
`if current_turn: _update_token_usage(...)`. -/
def stepTurn (agent : String) (st : SegState) (e : TelemetryEvent) : SegState :=
  let st1 :=
    if isUserPrompt e then
      { cur := some { turn_id := st.counter + 1
                      agent_type := agent
                      user_prompt := extractUserPrompt e
                      timestamp := some e.timestamp }
        counter := st.counter + 1
        acc := st.acc ++ st.cur.toList }
    else
      match st.cur with
      | none => st
      | some t =>
        if isAssistantResponse e then
          { st with cur := some { t with assistant_response := extractAssistantResponse e } }
        else if isToolCall e then
          { st with cur := some { t with tool_calls := t.tool_calls ++ [extractToolCall e] } }
        else if isToolResult e then
          { st with cur := some { t with tool_results := t.tool_results ++ [extractToolResult e] } }
        else st
  match st1.cur with
  | some t => { st1 with cur := some (updateTokenUsage t e) }
  | none => st1

/-- Mirrors `_process_conversation_turns`: fold the session's ordered events
through `stepTurn` and append the still-open turn at end of session. -/
def segmentTurns (agent : String) (events : List TelemetryEvent) :
    List ConversationTurn :=
  let st := events.foldl (stepTurn agent) { cur := none, counter := 0, acc := [] }
  st.acc ++ st.cur.toList

/-- The four aggregates computed by `_calculate_flow_statistics` and stored
on the `ConversationFlow`. -/
structure FlowStats where
  total_tokens : List (String × Int)
  total_cost : ℚ
  tools_used : List (AttrValue × Int)
  error_count : Nat
  deriving DecidableEq

/-- One iteration of the loop of `_calculate_flow_statistics` over a turn:
add the turn's `token_usage` into `total_tokens` per key, count tool names
into `tools_used`, add the error-list length, and add the cost estimate
(`input * 0.00001 + output * 0.00003`, each term guarded by Python
truthiness, so a key that is absent or `0` contributes nothing). The float
rates `0.00001` and `0.00003` are modelled exactly as `1/100000` and
`3/100000` in `ℚ`. -/
def stepFlowStats (s : FlowStats) (turn : ConversationTurn) : FlowStats :=
  let tok := turn.token_usage.foldl (fun acc p => dictAdd acc p.1 p.2) s.total_tokens
  let tools := turn.tool_calls.foldl (fun acc tc => dictAdd acc tc.name 1) s.tools_used
  let errs := s.error_count + turn.errors.length
  let c1 := match turn.token_usage.lookup "input" with
    | some n => if n = 0 then s.total_cost else s.total_cost + (n : ℚ) * (1 / 100000)
    | none => s.total_cost
  let c2 := match turn.token_usage.lookup "output" with
    | some n => if n = 0 then c1 else c1 + (n : ℚ) * (3 / 100000)
    | none => c1
  { total_tokens := tok, total_cost := c2, tools_used := tools, error_count := errs }

/-- Mirrors `_calculate_flow_statistics`: reset the aggregates and fold over
the flow's turns. -/
def calcFlowStatistics (turns : List ConversationTurn) : FlowStats :=
  turns.foldl stepFlowStats
    { total_tokens := [], total_cost := 0, tools_used := [], error_count := 0 }

/-- The value of one key of a turn's `token_usage`, reading a missing key
as `0`. -/
def turnTokenVal (t : ConversationTurn) (k : String) : Int :=
  (t.token_usage.lookup k).getD 0

/-- Session key used by `analyze_conversation_flow`:
`event.trace_id or event.service_name` — Python `or` falls through on a
falsy (absent or empty) `trace_id`. -/
def sessionKey (e : TelemetryEvent) : String :=
  match e.trace_id with
  | some t => if t = "" then e.service_name else t
  | none => e.service_name

/-- The sort key comparison of `session_events.sort(key=lambda x: x.timestamp)`. -/
def tsLE (a b : TelemetryEvent) : Bool :=
  decide (a.timestamp ≤ b.timestamp)

/-- The events collected into the bucket `agent_sessions[ag][key]` by
`analyze_conversation_flow` before sorting. The loop appends each event to
its bucket in input order, so a bucket equals a filter of the input list. -/
def sessionEventsRaw (events : List TelemetryEvent) (ag key : String) :
    List TelemetryEvent :=
  events.filter (fun e => e.agent_type == ag && sessionKey e == key)

/-- One session's event list after `session_events.sort(key=lambda x:
x.timestamp)`. Python's Timsort is a stable sort, as is `List.mergeSort`;
a stable sort by a total preorder is unique, so `mergeSort` is a faithful
model. -/
def sessionEventsSorted (events : List TelemetryEvent) (ag key : String) :
    List TelemetryEvent :=
  (sessionEventsRaw events ag key).mergeSort tsLE

/-- Numeric branch of `format_timestamp` in `telemetry_analyzer/analyzer.py`:
disambiguate units by magnitude (`> 1e15` nanoseconds, `> 1e12`
microseconds, otherwise seconds) and return the seconds value of the built
instant. -/
def formatTimestampNumeric (v : ℚ) : ℚ :=
  if v > 10 ^ 15 then v / 10 ^ 9
  else if v > 10 ^ 12 then v / 10 ^ 6
  else v

/-- Numeric branch of `_extract_timestamp` in `unified_analyzer.py`: every
numeric value is divided by `1e9` (always treated as nanoseconds, no
magnitude disambiguation). -/
def extractTimestampNumericU (v : ℚ) : ℚ :=
  v / 10 ^ 9

/-- A raw timestamp field value as seen by `_extract_timestamp`. A string
value is represented by the outcome of its ISO-8601/strptime parse (the
string-parsing itself is outside the model); a numeric value is carried
exactly. -/
inductive TsVal where
  | isoParsed (q : ℚ)
  | isoBad
  | num (v : ℚ)
  deriving DecidableEq

/-- Mirrors `_extract_timestamp` on the value of
`data.get('timestamp', data.get('timeUnixNano'))`; `now` is the wall-clock
fallback `datetime.now(timezone.utc)`. -/
def extractTimestampVal (tv : Option TsVal) (now : ℚ) : ℚ :=
  match tv with
  | some (.isoParsed q) => q
  | some .isoBad => now
  | some (.num v) => v / 10 ^ 9
  | none => now

/-- An OpenTelemetry attribute value as unwrapped by `_extract_attributes`
in `unified_analyzer.py`: either a typed-value object (fields
`stringValue` / `intValue` / `boolValue`, each optional) or a plain scalar. -/
inductive OTelVal where
  | obj (sv : Option String) (iv : Option Int) (bv : Option Bool)
  | plain (v : AttrValue)
  deriving DecidableEq

/-- The value unwrap of `_extract_attributes`: prefer `stringValue`, else
`intValue`, else `boolValue`; a typed object carrying none of the three is
skipped; a plain (non-dict) value is taken as is. -/
def unwrapOTelValU : OTelVal → Option AttrValue
  | .obj (some s) _ _ => some (.str s)
  | .obj none (some i) _ => some (.int i)
  | .obj none none (some b) => some (.bool b)
  | .obj none none none => none
  | .plain v => some v

/-- One entry of a list-typed `attributes` field as inspected by
`_extract_attributes`: a dict with both `key` and `value`, or anything else
(skipped). -/
inductive UEntry where
  | kv (key : String) (value : OTelVal)
  | malformed
  deriving DecidableEq

/-- The shape of a raw record's `attributes` field: a mapping, an
OpenTelemetry key/value array, or absent/unrecognized. -/
inductive RawAttrs where
  | dict (m : List (String × AttrValue))
  | arr (l : List UEntry)
  | absent
  deriving DecidableEq

/-- The event-level part of `_extract_attributes` (everything before the
resource-attribute merge). -/
def extractAttributesCore (a : RawAttrs) : List (String × AttrValue) :=
  match a with
  | .dict d => dictUpdate [] d
  | .arr l =>
    l.foldl (fun acc ent =>
      match ent with
      | .kv k v =>
        match unwrapOTelValU v with
        | some av => dictInsert acc k av
        | none => acc
      | .malformed => acc) []
  | .absent => []

/-- Mirrors `_extract_attributes` in full: extract the event-level
attributes, then `attributes.update(resource.attributes)` (an absent or
non-mapping `resource.attributes` is the empty update). -/
def extractAttributesU (a : RawAttrs) (resourceAttrs : List (String × AttrValue)) :
    List (String × AttrValue) :=
  dictUpdate (extractAttributesCore a) resourceAttrs

/-- One raw JSONL record as consumed by `_parse_event` in
`unified_analyzer.py`, with the fields that function reads. -/
structure RawRecord where
  timestamp : Option TsVal := none
  timeUnixNano : Option TsVal := none
  rtype : Option String := none
  spanId : Option String := none
  traceId : Option String := none
  parentSpanId : Option String := none
  serviceName : Option String := none
  operationName : Option String := none
  name : Option String := none
  attrs : RawAttrs := .absent
  resourceAttrs : List (String × AttrValue) := []
  logs : List LogEntry := []
  deriving DecidableEq

/-- Mirrors `_determine_event_type`: the filename hint wins over the
record-level `type` field. -/
def determineEventType (data_rtype : Option String) (file_type : String) : String :=
  if containsSeq "traces".toList file_type.toList then "trace"
  else if containsSeq "logs".toList file_type.toList then "log"
  else if containsSeq "metrics".toList file_type.toList then "metric"
  else data_rtype.getD "unknown"

/-- Mirrors `_extract_service_name`: a truthy top-level `serviceName` wins,
else a string-valued `resource.attributes['service.name']`, else a default
derived from the agent type. -/
def extractServiceName (r : RawRecord) (agent : String) : String :=
  match r.serviceName with
  | some s =>
    if s = "" then extractServiceNameFallback r agent else s
  | none => extractServiceNameFallback r agent
where
  extractServiceNameFallback (r : RawRecord) (agent : String) : String :=
    match r.resourceAttrs.lookup "service.name" with
    | some (.str s) => s
    | _ =>
      if agent = "claude-code" then "claude-code"
      else if agent = "gemini-cli" then "gemini-cli"
      else "unknown"

/-- Mirrors `_parse_event` on a structurally well-formed record (a record
whose field shapes raise in Python is covered by the `malformed` case of
`RawLine` instead). `now` is the wall-clock timestamp fallback. -/
def parseEventU (r : RawRecord) (agent file_type : String) (now : ℚ) :
    TelemetryEvent :=
  { timestamp := extractTimestampVal (r.timestamp.orElse (fun _ => r.timeUnixNano)) now
    event_type := determineEventType r.rtype file_type
    agent_type := agent
    span_id := r.spanId
    trace_id := r.traceId
    parent_span_id := r.parentSpanId
    service_name := extractServiceName r agent
    operation_name := r.operationName.orElse (fun _ => r.name)
    attributes := extractAttributesU r.attrs r.resourceAttrs
    logs := r.logs }

/-- One line of a JSONL file as seen by `_load_file`: blank (skipped
silently), malformed (JSON decode or record-shape failure — one warning,
line skipped), or a well-formed record. -/
inductive RawLine where
  | blank
  | malformed (msg : String)
  | record (r : RawRecord)

/-- Mirrors the per-line loop of `_load_file` in `unified_analyzer.py`:
returns the accumulated event list and the number of warnings printed.
Every failure is caught inside the loop, so the fold is total and always
consumes the whole file. -/
def loadFile (lines : List RawLine) (agent file_type : String) (now : ℚ) :
    List TelemetryEvent × Nat :=
  lines.foldl
    (fun acc l =>
      match l with
      | .blank => acc
      | .malformed _ => (acc.1, acc.2 + 1)
      | .record r => (acc.1 ++ [parseEventU r agent file_type now], acc.2))
    ([], 0)

/-- One line of a JSONL file as seen by `parse_jsonl` in
`claude_telemetry/claude-telemetry-analyzer`: blank, a JSON decode failure
(warning, skipped), or a decoded object of type `J`. -/
inductive CTLine (J : Type) where
  | blank
  | malformed (msg : String)
  | obj (j : J)

/-- Mirrors `parse_jsonl` of the claude-telemetry-analyzer package: the
decoded objects in order, plus the number of warnings printed. -/
def parseJsonlCT {J : Type} (lines : List (CTLine J)) : List J × Nat :=
  lines.foldl
    (fun acc l =>
      match l with
      | .blank => acc
      | .malformed _ => (acc.1, acc.2 + 1)
      | .obj j => (acc.1 ++ [j], acc.2))
    ([], 0)

/-- An OpenTelemetry attribute value as unwrapped by `parse_log_record` in
`telemetry_analyzer/analyzer.py` (this variant casts `intValue` to int and
`doubleValue` to float and has no `boolValue` case). -/
inductive OTelValL where
  | obj (sv : Option String) (iv : Option Int) (dv : Option ℚ)
  | plain (v : AttrValue)
  deriving DecidableEq

/-- The value unwrap of `parse_log_record`: `stringValue`, else `intValue`
(cast to int), else `doubleValue` (cast to float); a typed object with none
of the three is skipped; a plain value is taken as is. -/
def unwrapOTelValL : OTelValL → Option AttrValue
  | .obj (some s) _ _ => some (.str s)
  | .obj none (some i) _ => some (.int i)
  | .obj none none (some d) => some (.float d)
  | .obj none none none => none
  | .plain v => some v

/-- One entry of a `logRecord.attributes` array: `parse_log_record` indexes
`attr['key']` and `attr['value']` directly, so entries are well-formed by
assumption (a malformed entry raises `KeyError` in Python, uncaught). -/
structure LREntry where
  key : String
  value : OTelValL
  deriving DecidableEq

/-- An OpenTelemetry `logRecord` with the fields `parse_log_record` reads.
`bodyStringValue` models `log_record.get('body', {}).get('stringValue', '')`
(absent body and absent `stringValue` both collapse to `none`). -/
structure LogRecord where
  attributes : Option (List LREntry) := none
  bodyStringValue : Option String := none
  timeUnixNano : Option AttrValue := none
  observedTimeUnixNano : Option AttrValue := none
  deriving DecidableEq

/-- The attributes-array-to-dict conversion loop of `parse_log_record`. -/
def lrEntriesToAttrs (l : List LREntry) : List (String × AttrValue) :=
  l.foldl (fun acc ent =>
    match unwrapOTelValL ent.value with
    | some v => dictInsert acc ent.key v
    | none => acc) []

/-- The event dictionary returned by `parse_log_record`. -/
structure ParsedLREvent where
  timestamp : Option AttrValue
  event_name : AttrValue
  attributes : List (String × AttrValue)
  deriving DecidableEq

/-- Mirrors `parse_log_record`: return `none` exactly when the record's
attributes array is absent or empty (Python falsiness of
`log_record.get('attributes')`); otherwise build the event, naming it from
`body.stringValue` with fallback to the `event.name` attribute and defaulting
to the empty string when both are absent. -/
def parse_log_record (lr : LogRecord) : Option ParsedLREvent :=
  match lr.attributes with
  | none => none
  | some [] => none
  | some (ent :: rest) =>
    let attrs := lrEntriesToAttrs (ent :: rest)
    let name0 := lr.bodyStringValue.getD ""
    let ename : AttrValue :=
      if name0 = "" then (attrs.lookup "event.name").getD (.str "")
      else .str name0
    some { timestamp := lr.timeUnixNano.orElse (fun _ => lr.observedTimeUnixNano)
           event_name := ename
           attributes := attrs }


/-! ### Association-list lemmas

Lookup behaviour of the Python-dict operations: `dictInsert` sets exactly
one key, and `dictUpdate` realizes last-writer-wins between the base map
and the update source. -/
theorem lookup_any_false {α β : Type} [BEq α] [LawfulBEq α]
    (m : List (α × β)) (k : α) (h : m.any (fun p => p.1 == k) = false) :
    m.lookup k = none := by
  induction m with
  | nil => rfl
  | cons p t ih =>
    simp only [List.any_cons, Bool.or_eq_false_iff] at h
    obtain ⟨h1, h2⟩ := h
    have hk : (k == p.1) = false := by
      cases hq : (k == p.1) with
      | true =>
        rw [eq_of_beq hq] at h1
        simp at h1
      | false => rfl
    obtain ⟨a, b⟩ := p
    rw [List.lookup_cons]
    simp only at hk
    rw [hk]
    exact ih h2

theorem lookup_map_replace {α β : Type} [BEq α] [LawfulBEq α]
    (m : List (α × β)) (k k' : α) (v : β) :
    ((m.map fun p => if p.1 == k then (k, v) else p).lookup k') =
      (if k' == k then (if m.any (fun p => p.1 == k) then some v else none)
       else m.lookup k') := by
  induction m with
  | nil =>
    cases hk : (k' == k) <;> simp [List.lookup]
  | cons p t ih =>
    obtain ⟨a, b⟩ := p
    rw [List.map_cons]
    cases hp : ((a, b).1 == k) with
    | true =>
      have hp2 : (a == k) = true := hp
      rw [if_pos rfl]
      cases hk : (k' == k) with
      | true =>
        have hk2 : k' = k := eq_of_beq hk
        subst hk2
        simp [List.lookup_cons, List.any_cons, hp2]
      | false =>
        have hak : a = k := eq_of_beq hp2
        subst hak
        simp [List.lookup_cons, hk, ih]
    | false =>
      have hp2 : (a == k) = false := hp
      rw [if_neg (by simp)]
      cases hk' : (k' == a) with
      | true =>
        have h2 : (k' == k) = false := by
          cases hq : (k' == k) with
          | true =>
            rw [eq_of_beq hk'] at hq
            rw [hq] at hp2
            exact absurd hp2 (by simp)
          | false => rfl
        simp [List.lookup_cons, hk', h2]
      | false =>
        simp only [List.lookup_cons, hk', ih, List.any_cons, hp2, Bool.false_or]

theorem lookup_dictInsert {α β : Type} [BEq α] [LawfulBEq α]
    (m : List (α × β)) (k k' : α) (v : β) :
    (dictInsert m k v).lookup k' = if k' == k then some v else m.lookup k' := by
  unfold dictInsert
  cases h : m.any (fun p => p.1 == k) with
  | true =>
    rw [if_pos rfl, lookup_map_replace]
    cases hk : (k' == k) <;> simp [h, hk]
  | false =>
    rw [if_neg (by simp), List.lookup_append]
    cases hk : (k' == k) with
    | true =>
      have hkk : k' = k := eq_of_beq hk
      subst hkk
      rw [lookup_any_false m k' h]
      simp [List.lookup_cons, hk]
    | false =>
      simp [List.lookup_cons, hk, Option.or_none]

theorem lookup_dictUpdate {α β : Type} [BEq α] [LawfulBEq α]
    (m src : List (α × β)) (k : α) :
    (dictUpdate m src).lookup k = (src.reverse.lookup k).or (m.lookup k) := by
  induction src generalizing m with
  | nil => simp [dictUpdate]
  | cons p t ih =>
    have step : dictUpdate m (p :: t) = dictUpdate (dictInsert m p.1 p.2) t := rfl
    rw [step, ih, List.reverse_cons, List.lookup_append, Option.or_assoc]
    congr 1
    rw [lookup_dictInsert]
    obtain ⟨a, b⟩ := p
    cases hk : (k == a) <;> simp [List.lookup_cons, hk]


/-! ### Token-usage lemmas

`_update_token_usage` assigns (never adds) each present token attribute, so
a per-turn token value is the value carried by the last event that set it. -/

/-- The integer value of a token attribute of an event, when present with an
integer payload (the shape `_update_token_usage` stores, per the
`Dict[str, int]` declaration of `token_usage`). -/
def tokenAttrInt (e : TelemetryEvent) (k : String) : Option Int :=
  match getAttr e k with
  | some (.int n) => some n
  | _ => none

/-- The value a run of `_update_token_usage` calls leaves for one token key:
the last event carrying the attribute wins. -/
def lastTokenVal (es : List TelemetryEvent) (k : String) : Option Int :=
  es.foldl (fun acc e => (tokenAttrInt e k).or acc) none

theorem updateTokenUsage_lookup (t : ConversationTurn) (e : TelemetryEvent) :
    (updateTokenUsage t e).token_usage.lookup "input" =
      (tokenAttrInt e "tokens.input").or (t.token_usage.lookup "input") ∧
    (updateTokenUsage t e).token_usage.lookup "output" =
      (tokenAttrInt e "tokens.output").or (t.token_usage.lookup "output") ∧
    (updateTokenUsage t e).token_usage.lookup "total" =
      (tokenAttrInt e "tokens.total").or (t.token_usage.lookup "total") := by
  have hio : (("input" : String) == "output") = false := by decide
  have hit : (("input" : String) == "total") = false := by decide
  have hoi : (("output" : String) == "input") = false := by decide
  have hot : (("output" : String) == "total") = false := by decide
  have hti : (("total" : String) == "input") = false := by decide
  have hto : (("total" : String) == "output") = false := by decide
  unfold updateTokenUsage tokenAttrInt
  rcases hgi : getAttr e "tokens.input" with _ | (s | ni | q | b) <;>
  rcases hgo : getAttr e "tokens.output" with _ | (s2 | no2 | q2 | b2) <;>
  rcases hgt : getAttr e "tokens.total" with _ | (s3 | nt | q3 | b3) <;>
  simp [lookup_dictInsert, hio, hit, hoi, hot, hti, hto]

theorem updateTokenUsage_fields (t : ConversationTurn) (e : TelemetryEvent) :
    (updateTokenUsage t e).turn_id = t.turn_id ∧
    (updateTokenUsage t e).agent_type = t.agent_type ∧
    (updateTokenUsage t e).user_prompt = t.user_prompt ∧
    (updateTokenUsage t e).assistant_response = t.assistant_response ∧
    (updateTokenUsage t e).tool_calls = t.tool_calls ∧
    (updateTokenUsage t e).tool_results = t.tool_results ∧
    (updateTokenUsage t e).timestamp = t.timestamp := by
  unfold updateTokenUsage
  rcases getAttr e "tokens.input" with _ | (s | ni | q | b) <;>
  rcases getAttr e "tokens.output" with _ | (s2 | no2 | q2 | b2) <;>
  rcases getAttr e "tokens.total" with _ | (s3 | nt | q3 | b3) <;>
  simp

theorem foldl_or_init {α : Type} (g : TelemetryEvent → Option α)
    (es : List TelemetryEvent) (a : Option α) :
    es.foldl (fun acc e => (g e).or acc) a =
      (es.foldl (fun acc e => (g e).or acc) none).or a := by
  induction es generalizing a with
  | nil => simp
  | cons e tl ih =>
    simp only [List.foldl_cons]
    rw [ih ((g e).or a), ih ((g e).or none), Option.or_assoc, Option.or_none]

theorem lastTokenVal_cons (e : TelemetryEvent) (tl : List TelemetryEvent)
    (k : String) :
    lastTokenVal (e :: tl) k = (lastTokenVal tl k).or (tokenAttrInt e k) := by
  simp only [lastTokenVal, List.foldl_cons, Option.or_none]
  exact foldl_or_init (fun e2 => tokenAttrInt e2 k) tl (tokenAttrInt e k)

theorem foldl_updateTokenUsage_lookup (es : List TelemetryEvent)
    (t : ConversationTurn) :
    ((es.foldl updateTokenUsage t).token_usage.lookup "input" =
      (lastTokenVal es "tokens.input").or (t.token_usage.lookup "input")) ∧
    ((es.foldl updateTokenUsage t).token_usage.lookup "output" =
      (lastTokenVal es "tokens.output").or (t.token_usage.lookup "output")) ∧
    ((es.foldl updateTokenUsage t).token_usage.lookup "total" =
      (lastTokenVal es "tokens.total").or (t.token_usage.lookup "total")) := by
  induction es generalizing t with
  | nil => simp [lastTokenVal]
  | cons e tl ih =>
    obtain ⟨ih1, ih2, ih3⟩ := ih (updateTokenUsage t e)
    obtain ⟨h1, h2, h3⟩ := updateTokenUsage_lookup t e
    refine ⟨?_, ?_, ?_⟩
    · rw [List.foldl_cons, ih1, h1, lastTokenVal_cons, Option.or_assoc]
    · rw [List.foldl_cons, ih2, h2, lastTokenVal_cons, Option.or_assoc]
    · rw [List.foldl_cons, ih3, h3, lastTokenVal_cons, Option.or_assoc]


/-! ### Cost lemmas -/

/-- The per-turn contribution of `_calculate_flow_statistics` to
`flow.total_cost`. -/
def turnCost (t : ConversationTurn) : ℚ :=
  (turnTokenVal t "input" : ℚ) * (1 / 100000) + (turnTokenVal t "output" : ℚ) * (3 / 100000)

theorem stepFlowStats_cost (s : FlowStats) (t : ConversationTurn) :
    (stepFlowStats s t).total_cost = s.total_cost + turnCost t := by
  unfold stepFlowStats turnCost turnTokenVal
  rcases hi : t.token_usage.lookup "input" with _ | n <;>
    rcases ho : t.token_usage.lookup "output" with _ | m <;>
    simp only [Option.getD_some, Option.getD_none]
  · push_cast; ring
  · by_cases hm : m = 0 <;> simp [hm]
  · by_cases hn : n = 0 <;> simp [hn]
  · by_cases hn : n = 0 <;> by_cases hm : m = 0 <;> simp [hn, hm]
    ring_nf

theorem foldl_stepFlowStats_cost (turns : List ConversationTurn) (s0 : FlowStats) :
    (turns.foldl stepFlowStats s0).total_cost = s0.total_cost + (turns.map turnCost).sum := by
  induction turns generalizing s0 with
  | nil => simp
  | cons t tl ih =>
    rw [List.foldl_cons, ih, stepFlowStats_cost, List.map_cons, List.sum_cons]
    ring

/-! ### Loader lemmas -/

/-- Test for a well-formed record line. -/
def lineIsRecord : RawLine → Bool
  | .record _ => true
  | _ => false

/-- Test for a malformed line. -/
def lineIsMalformed : RawLine → Bool
  | .malformed _ => true
  | _ => false

/-- The event produced by one line of `_load_file`, if any. -/
def lineEvent (agent file_type : String) (now : ℚ) : RawLine → Option TelemetryEvent
  | .record r => some (parseEventU r agent file_type now)
  | _ => none

/-- Test for a decoded-object line of the claude-telemetry `parse_jsonl`. -/
def ctIsObj {J : Type} : CTLine J → Bool
  | .obj _ => true
  | _ => false

/-- Test for a malformed line of the claude-telemetry `parse_jsonl`. -/
def ctIsMalformed {J : Type} : CTLine J → Bool
  | .malformed _ => true
  | _ => false

/-- The object produced by one line of the claude-telemetry `parse_jsonl`. -/
def ctObj {J : Type} : CTLine J → Option J
  | .obj j => some j
  | _ => none

theorem loadFile_foldl (lines : List RawLine) (agent ft : String) (now : ℚ)
    (acc : List TelemetryEvent × Nat) :
    lines.foldl
      (fun acc l =>
        match l with
        | .blank => acc
        | .malformed _ => (acc.1, acc.2 + 1)
        | .record r => (acc.1 ++ [parseEventU r agent ft now], acc.2)) acc =
      (acc.1 ++ lines.filterMap (lineEvent agent ft now),
       acc.2 + lines.countP lineIsMalformed) := by
  induction lines generalizing acc with
  | nil => simp
  | cons l tl ih =>
    cases l with
    | blank =>
      rw [List.foldl_cons, ih]
      simp [lineEvent, lineIsMalformed, List.countP_cons]
    | malformed m =>
      rw [List.foldl_cons, ih]
      simp only [lineEvent, lineIsMalformed, List.filterMap_cons, List.countP_cons]
      simp [Nat.add_assoc, Nat.add_comm 1]
    | record r =>
      rw [List.foldl_cons, ih]
      simp [lineEvent, lineIsMalformed, List.countP_cons]

theorem parseJsonlCT_foldl {J : Type} (lines : List (CTLine J))
    (acc : List J × Nat) :
    lines.foldl
      (fun acc l =>
        match l with
        | .blank => acc
        | .malformed _ => (acc.1, acc.2 + 1)
        | .obj j => (acc.1 ++ [j], acc.2)) acc =
      (acc.1 ++ lines.filterMap ctObj, acc.2 + lines.countP ctIsMalformed) := by
  induction lines generalizing acc with
  | nil => simp
  | cons l tl ih =>
    cases l with
    | blank =>
      rw [List.foldl_cons, ih]
      simp [ctObj, ctIsMalformed, List.countP_cons]
    | malformed m =>
      rw [List.foldl_cons, ih]
      simp only [ctObj, ctIsMalformed, List.filterMap_cons, List.countP_cons]
      simp [Nat.add_assoc, Nat.add_comm 1]
    | obj j =>
      rw [List.foldl_cons, ih]
      simp [ctObj, ctIsMalformed, List.countP_cons]

theorem length_filterMap_lineEvent (lines : List RawLine) (agent ft : String)
    (now : ℚ) :
    (lines.filterMap (lineEvent agent ft now)).length = lines.countP lineIsRecord := by
  induction lines with
  | nil => rfl
  | cons l tl ih =>
    cases l <;> simp [lineEvent, lineIsRecord, List.countP_cons, ih]

theorem length_filterMap_ctObj {J : Type} (lines : List (CTLine J)) :
    (lines.filterMap ctObj).length = lines.countP ctIsObj := by
  induction lines with
  | nil => rfl
  | cons l tl ih =>
    cases l <;> simp [ctObj, ctIsObj, List.countP_cons, ih]


/-! ### Example events -/

/-- Example user-prompt event carrying prompt text "A". -/
def exPromptA : TelemetryEvent :=
  { timestamp := 0, event_type := "log", agent_type := "agent-a",
    attributes := [("prompt", .str "A")] }

/-- Example tool-call event (attribute `tool.name`). -/
def exToolCall : TelemetryEvent :=
  { timestamp := 1, event_type := "log", agent_type := "agent-a",
    attributes := [("tool.name", .str "X")] }

/-- Example tool-result event (attribute `tool.result`). -/
def exToolResult : TelemetryEvent :=
  { timestamp := 2, event_type := "log", agent_type := "agent-a",
    attributes := [("tool.result", .str "ok")] }

/-- Example user-prompt event carrying prompt text "B". -/
def exPromptB : TelemetryEvent :=
  { timestamp := 3, event_type := "log", agent_type := "agent-a",
    attributes := [("prompt", .str "B")] }

/-- The first turn the segmenter builds from
`[exPromptA, exToolCall, exToolResult, exPromptB]`. -/
def exTurn1 : ConversationTurn :=
  { turn_id := 1, agent_type := "agent-a", user_prompt := some (.str "A"),
    tool_calls := [{ name := .str "X", inputs := none, timestamp := 1 }],
    tool_results := [{ result := .str "ok", success := .bool true, timestamp := 2 }],
    timestamp := some 0 }

/-- The second turn of the same run: prompt "B", empty tool lists. -/
def exTurn2 : ConversationTurn :=
  { turn_id := 2, agent_type := "agent-a", user_prompt := some (.str "B"),
    timestamp := some 3 }

theorem stepTurn_prompt (agent : String) (st : SegState) (e : TelemetryEvent)
    (h : isUserPrompt e = true) :
    stepTurn agent st e =
      { cur := some (updateTokenUsage
          { turn_id := st.counter + 1, agent_type := agent,
            user_prompt := extractUserPrompt e,
            timestamp := some e.timestamp } e)
        counter := st.counter + 1
        acc := st.acc ++ st.cur.toList } := by
  simp [stepTurn, h]

theorem stepTurn_nonprompt_none (agent : String) (st : SegState)
    (e : TelemetryEvent) (h : isUserPrompt e = false) (hc : st.cur = none) :
    stepTurn agent st e = st := by
  simp [stepTurn, h, hc]

theorem stepTurn_nonprompt_acc (agent : String) (st : SegState)
    (e : TelemetryEvent) (h : isUserPrompt e = false) :
    (stepTurn agent st e).acc = st.acc ∧
    (stepTurn agent st e).counter = st.counter := by
  cases hc : st.cur with
  | none => rw [stepTurn_nonprompt_none agent st e h hc]; exact ⟨rfl, rfl⟩
  | some t =>
    simp only [stepTurn, h, Bool.false_eq_true, if_false, hc]
    repeat' split
    all_goals simp

theorem stepTurn_response (agent : String) (st : SegState)
    (t : ConversationTurn) (e : TelemetryEvent) (hc : st.cur = some t)
    (h : isUserPrompt e = false) (hr : isAssistantResponse e = true) :
    stepTurn agent st e =
      { st with cur := some (updateTokenUsage
          { t with assistant_response := extractAssistantResponse e } e) } := by
  simp [stepTurn, h, hc, hr]

theorem stepTurn_toolcall (agent : String) (st : SegState)
    (t : ConversationTurn) (e : TelemetryEvent) (hc : st.cur = some t)
    (h : isUserPrompt e = false) (hr : isAssistantResponse e = false)
    (htc : isToolCall e = true) :
    stepTurn agent st e =
      { st with cur := some (updateTokenUsage
          { t with tool_calls := t.tool_calls ++ [extractToolCall e] } e) } := by
  simp [stepTurn, h, hc, hr, htc]

theorem stepTurn_toolresult (agent : String) (st : SegState)
    (t : ConversationTurn) (e : TelemetryEvent) (hc : st.cur = some t)
    (h : isUserPrompt e = false) (hr : isAssistantResponse e = false)
    (htc : isToolCall e = false) (htr : isToolResult e = true) :
    stepTurn agent st e =
      { st with cur := some (updateTokenUsage
          { t with tool_results := t.tool_results ++ [extractToolResult e] } e) } := by
  simp [stepTurn, h, hc, hr, htc, htr]

theorem stepTurn_other (agent : String) (st : SegState)
    (t : ConversationTurn) (e : TelemetryEvent) (hc : st.cur = some t)
    (h : isUserPrompt e = false) (hr : isAssistantResponse e = false)
    (htc : isToolCall e = false) (htr : isToolResult e = false) :
    stepTurn agent st e = { st with cur := some (updateTokenUsage t e) } := by
  simp [stepTurn, h, hc, hr, htc, htr]


/-! ### Session-sort lemmas -/

theorem tsLE_trans (a b c : TelemetryEvent) :
    tsLE a b → tsLE b c → tsLE a c := by
  simp only [tsLE, decide_eq_true_eq]
  exact le_trans

theorem tsLE_total (a b : TelemetryEvent) : tsLE a b || tsLE b a := by
  rcases le_total a.timestamp b.timestamp with h | h <;> simp [tsLE, h]


/-- Example event matching both the prompt heuristic (attribute `prompt`)
and the tool-call heuristic (log message containing "tool"). -/
def exPromptTool : TelemetryEvent :=
  { timestamp := 5, event_type := "log", agent_type := "agent-a",
    attributes := [("prompt", .str "build it")],
    logs := [{ message := "calling Tool hammer" }] }

/-- Example token-bearing event: `tokens.input = n` at the given timestamp. -/
def exTokIn (n : Int) (ts : ℚ) : TelemetryEvent :=
  { timestamp := ts, event_type := "metric", agent_type := "agent-a",
    attributes := [("tokens.input", .int n)] }

/-- Example turn holding `input = 1000`, `output = 1000` token usage. -/
def exTurnTok : ConversationTurn :=
  { turn_id := 1, agent_type := "agent-a",
    token_usage := [("input", 1000), ("output", 1000)] }

/-- Example log record lacking both `body.stringValue` and an `event.name`
attribute but carrying a non-empty attributes array. -/
def exLogRecordNoName : LogRecord :=
  { attributes := some [{ key := "k", value := .plain (.str "v") }] }

/-! ### Claim theorems -/

/-- C1: the Turn Segmenter fold opens a turn with incremented turn id on a
user-prompt event, appending the previously open turn; folds non-prompt
events into the open turn and drops them when none is open; appends the open
turn at end of session. The sequence [prompt A, tool_call X, tool_result X,
prompt B] yields exactly the two expected turns, and in [tool_call X,
prompt A] the leading tool call is attached to no turn. -/
theorem claim_C1_turn_segmenter :
    (∀ (agent : String) (st : SegState) (e : TelemetryEvent),
        isUserPrompt e = true →
        (stepTurn agent st e).acc = st.acc ++ st.cur.toList ∧
        (stepTurn agent st e).counter = st.counter + 1 ∧
        ∃ t, (stepTurn agent st e).cur = some t ∧
          t.turn_id = st.counter + 1 ∧
          t.user_prompt = extractUserPrompt e ∧
          t.tool_calls = [] ∧ t.tool_results = []) ∧
    (∀ (agent : String) (st : SegState) (e : TelemetryEvent),
        isUserPrompt e = false →
        (stepTurn agent st e).acc = st.acc ∧
        (stepTurn agent st e).counter = st.counter ∧
        (st.cur = none → stepTurn agent st e = st)) ∧
    segmentTurns "agent-a" [exPromptA, exToolCall, exToolResult, exPromptB] =
      [exTurn1, exTurn2] ∧
    segmentTurns "agent-a" [exToolCall, exPromptA] =
      [{ turn_id := 1, agent_type := "agent-a", user_prompt := some (.str "A"),
         timestamp := some 0 }] := by
  refine ⟨?_, ?_, by decide, by decide⟩
  · intro agent st e h
    rw [stepTurn_prompt agent st e h]
    obtain ⟨f1, f2, f3, f4, f5, f6, f7⟩ := updateTokenUsage_fields
      { turn_id := st.counter + 1, agent_type := agent,
        user_prompt := extractUserPrompt e, timestamp := some e.timestamp } e
    exact ⟨rfl, rfl, _, rfl, f1, f3, f5, f6⟩
  · intro agent st e h
    obtain ⟨h1, h2⟩ := stepTurn_nonprompt_acc agent st e h
    exact ⟨h1, h2, fun hc => stepTurn_nonprompt_none agent st e h hc⟩

/-- Witness for C1: the prompt case at a concrete state and event, and the
drop case at a concrete non-prompt event with no open turn. -/
theorem claim_C1_turn_segmenter_witness :
    isUserPrompt exPromptA = true ∧
    (∃ t, (stepTurn "agent-a" ⟨none, 0, []⟩ exPromptA).cur = some t ∧
      t.turn_id = 0 + 1 ∧ t.user_prompt = extractUserPrompt exPromptA ∧
      t.tool_calls = [] ∧ t.tool_results = []) ∧
    isUserPrompt exToolCall = false ∧
    stepTurn "agent-a" ⟨none, 0, []⟩ exToolCall = ⟨none, 0, []⟩ :=
  ⟨by decide,
   (claim_C1_turn_segmenter.1 "agent-a" ⟨none, 0, []⟩ exPromptA (by decide)).2.2,
   by decide,
   (claim_C1_turn_segmenter.2.1 "agent-a" ⟨none, 0, []⟩ exToolCall (by decide)).2.2 rfl⟩


/-- C2 counterexample: two permutations of the same token-bearing events
within one turn yield different `total_tokens` values (7 vs 5), and neither
equals the sum 12: per-turn token usage is overwritten, not added. -/
theorem claim_C2_counterexample :
    (calcFlowStatistics (segmentTurns "agent-a"
        [exPromptA, exTokIn 5 1, exTokIn 7 2])).total_tokens.lookup "input" = some 7 ∧
    (calcFlowStatistics (segmentTurns "agent-a"
        [exPromptA, exTokIn 7 2, exTokIn 5 1])).total_tokens.lookup "input" = some 5 ∧
    [exPromptA, exTokIn 7 2, exTokIn 5 1].Perm [exPromptA, exTokIn 5 1, exTokIn 7 2] ∧
    (some (7 : Int) ≠ some (5 + 7 : Int)) ∧ (some (7 : Int) ≠ some (5 : Int)) := by
  refine ⟨by decide, by decide, .cons _ (.swap _ _ _), by decide, by decide⟩

/-- C2 amended: per-turn `token_usage` is last-write-wins per key — after a
run of `_update_token_usage` calls, each of the `input`/`output`/`total`
keys holds the value of the last event that carried the corresponding
`tokens.*` attribute (falling back to the previous turn state), so arrival
order matters and the result is not the sum. -/
theorem claim_C2_token_last_write :
    ∀ (es : List TelemetryEvent) (t : ConversationTurn),
      ((es.foldl updateTokenUsage t).token_usage.lookup "input" =
        (lastTokenVal es "tokens.input").or (t.token_usage.lookup "input")) ∧
      ((es.foldl updateTokenUsage t).token_usage.lookup "output" =
        (lastTokenVal es "tokens.output").or (t.token_usage.lookup "output")) ∧
      ((es.foldl updateTokenUsage t).token_usage.lookup "total" =
        (lastTokenVal es "tokens.total").or (t.token_usage.lookup "total")) :=
  fun es t => foldl_updateTokenUsage_lookup es t

/-- C3 counterexample: `format_timestamp` resolves the seconds-scale value 1
to instant 1, but resolves `1 * 1e9` to instant `1e9` (it is not above the
`1e12` microseconds threshold, so it is read as seconds), refuting the
claimed 1e9-scaling round-trip for every numeric seconds-scale timestamp. -/
theorem claim_C3_counterexample :
    formatTimestampNumeric 1 = 1 ∧
    formatTimestampNumeric (1 * 10 ^ 9) = 10 ^ 9 ∧
    ((10 : ℚ) ^ 9 ≠ 1) := by
  norm_num [formatTimestampNumeric]

/-- C3 amended: `format_timestamp` disambiguates numeric units by magnitude
(above 1e15 nanoseconds, above 1e12 microseconds, otherwise seconds), and
the 1e9-scaling round-trip holds exactly for seconds-scale values above 1e6
(so that the scaled value crosses the nanoseconds threshold); the unified
analyzer's `_extract_timestamp` performs no disambiguation and always
divides numeric values by 1e9. -/
theorem claim_C3_magnitude_rules :
    (∀ v : ℚ, v > 10 ^ 15 → formatTimestampNumeric v = v / 10 ^ 9) ∧
    (∀ v : ℚ, ¬(v > 10 ^ 15) → v > 10 ^ 12 → formatTimestampNumeric v = v / 10 ^ 6) ∧
    (∀ v : ℚ, ¬(v > 10 ^ 12) → formatTimestampNumeric v = v) ∧
    (∀ v : ℚ, 10 ^ 6 < v → v ≤ 10 ^ 12 →
        formatTimestampNumeric (v * 10 ^ 9) = formatTimestampNumeric v) ∧
    (∀ v : ℚ, extractTimestampNumericU v = v / 10 ^ 9) := by
  refine ⟨?_, ?_, ?_, ?_, fun v => rfl⟩
  · intro v h; simp [formatTimestampNumeric, h]
  · intro v h1 h2; simp [formatTimestampNumeric, h1, h2]
  · intro v h
    have h15 : ¬(v > 10 ^ 15) := by
      intro hc
      exact h (lt_trans (by norm_num) hc)
    simp [formatTimestampNumeric, h, h15]
  · intro v h1 h2
    have hc : v * 10 ^ 9 > 10 ^ 15 := by
      have : (10 : ℚ) ^ 15 = 10 ^ 6 * 10 ^ 9 := by norm_num
      rw [this]
      exact (mul_lt_mul_right (by norm_num : (0 : ℚ) < 10 ^ 9)).mpr h1
    have h12 : ¬(v > 10 ^ 12) := not_lt.mpr h2
    have h15 : ¬(v > 10 ^ 15) := fun hc2 => h12 (lt_trans (by norm_num) hc2)
    rw [show formatTimestampNumeric (v * 10 ^ 9) = v * 10 ^ 9 / 10 ^ 9 by
          simp [formatTimestampNumeric, hc],
        show formatTimestampNumeric v = v by simp [formatTimestampNumeric, h12, h15]]
    field_simp

/-- Witness for C3 amended: the round-trip instance at the seconds value
`1e9` (a realistic epoch-seconds timestamp). -/
theorem claim_C3_magnitude_rules_witness :
    ((10 : ℚ) ^ 6 < 10 ^ 9 ∧ (10 : ℚ) ^ 9 ≤ 10 ^ 12) ∧
    formatTimestampNumeric (10 ^ 9 * 10 ^ 9) = formatTimestampNumeric (10 ^ 9) :=
  ⟨⟨by norm_num, by norm_num⟩,
   claim_C3_magnitude_rules.2.2.2.1 (10 ^ 9) (by norm_num) (by norm_num)⟩

/-- C4 counterexample: a record whose event-level attributes carry
`k = "event"` and whose `resource.attributes` carry `k = "res"` extracts to
`k = "res"` — the resource-level value overwrites the event-level one. -/
theorem claim_C4_counterexample :
    (extractAttributesU (.dict [("k", .str "event")])
        [("k", .str "res")]).lookup "k" = some (.str "res") ∧
    (some (AttrValue.str "res") ≠ some (AttrValue.str "event")) := by
  refine ⟨by decide, by decide⟩

/-- C4 amended: `_extract_attributes` merges `resource.attributes` with
`dict.update`, so the LAST writer wins: a key present among the resource
attributes takes its last resource-level binding, and only absent keys fall
back to the event-level value. -/
theorem claim_C4_resource_overwrites :
    ∀ (a : RawAttrs) (res : List (String × AttrValue)) (k : String),
      (extractAttributesU a res).lookup k =
        (res.reverse.lookup k).or ((extractAttributesCore a).lookup k) :=
  fun a res k => lookup_dictUpdate (extractAttributesCore a) res k


/-- C5: the Session Grouper keys events by trace id (when present and
non-empty) falling back to service name, buckets exactly the matching
events, and each session's output is ascending by timestamp, is a
permutation of the bucket, and keeps tied events in input order (stable). -/
theorem claim_C5_session_grouper :
    (∀ (e : TelemetryEvent) (tid : String),
        e.trace_id = some tid → tid ≠ "" → sessionKey e = tid) ∧
    (∀ e : TelemetryEvent, e.trace_id = none → sessionKey e = e.service_name) ∧
    (∀ (events : List TelemetryEvent) (ag key : String) (e : TelemetryEvent),
        e ∈ sessionEventsRaw events ag key ↔
          e ∈ events ∧ e.agent_type = ag ∧ sessionKey e = key) ∧
    (∀ (events : List TelemetryEvent) (ag key : String),
        (sessionEventsSorted events ag key).Pairwise
          (fun a b => a.timestamp ≤ b.timestamp)) ∧
    (∀ (events : List TelemetryEvent) (ag key : String),
        (sessionEventsSorted events ag key).Perm (sessionEventsRaw events ag key)) ∧
    (∀ (events : List TelemetryEvent) (ag key : String) (a b : TelemetryEvent),
        a.timestamp ≤ b.timestamp →
        List.Sublist [a, b] (sessionEventsRaw events ag key) →
        List.Sublist [a, b] (sessionEventsSorted events ag key)) := by
  refine ⟨?_, ?_, ?_, ?_, ?_, ?_⟩
  · intro e tid h hne; simp [sessionKey, h, hne]
  · intro e h; simp [sessionKey, h]
  · intro events ag key e
    simp [sessionEventsRaw, List.mem_filter, and_assoc]
  · intro events ag key
    have hp := List.sorted_mergeSort tsLE_trans tsLE_total
      (sessionEventsRaw events ag key)
    exact hp.imp (fun hab => by simpa [tsLE] using hab)
  · intro events ag key
    exact List.mergeSort_perm (sessionEventsRaw events ag key) tsLE
  · intro events ag key a b hab hsub
    exact List.pair_sublist_mergeSort tsLE_trans tsLE_total
      (by simpa [tsLE] using hab) hsub

/-- Witness for C5: a concrete two-event session where the pair in input
order with ordered timestamps stays in order in the sorted output. -/
theorem claim_C5_session_grouper_witness :
    (exPromptA.timestamp ≤ exPromptB.timestamp ∧
      List.Sublist [exPromptA, exPromptB]
        (sessionEventsRaw [exPromptA, exPromptB] "agent-a" "unknown")) ∧
    List.Sublist [exPromptA, exPromptB]
      (sessionEventsSorted [exPromptA, exPromptB] "agent-a" "unknown") :=
  ⟨⟨by norm_num [exPromptA, exPromptB], by decide⟩,
   claim_C5_session_grouper.2.2.2.2.2 [exPromptA, exPromptB] "agent-a" "unknown"
     exPromptA exPromptB (by norm_num [exPromptA, exPromptB]) (by decide)⟩

/-- C10: conversation flows are partitioned by the pair (agent type,
session key): every event of a session bucket carries that bucket's agent
type and key, so two events with equal session key but different agent
types never share a session. -/
theorem claim_C10_agent_partition :
    (∀ (events : List TelemetryEvent) (ag key : String) (e : TelemetryEvent),
        e ∈ sessionEventsSorted events ag key →
        e.agent_type = ag ∧ sessionKey e = key) ∧
    (∀ (events : List TelemetryEvent) (ag key : String) (e1 e2 : TelemetryEvent),
        sessionKey e1 = sessionKey e2 → e1.agent_type ≠ e2.agent_type →
        ¬(e1 ∈ sessionEventsSorted events ag key ∧
          e2 ∈ sessionEventsSorted events ag key)) := by
  have base : ∀ (events : List TelemetryEvent) (ag key : String) (e : TelemetryEvent),
      e ∈ sessionEventsSorted events ag key → e.agent_type = ag ∧ sessionKey e = key := by
    intro events ag key e he
    have hraw : e ∈ sessionEventsRaw events ag key := List.mem_mergeSort.mp he
    have := List.mem_filter.mp hraw
    obtain ⟨-, hcond⟩ := this
    simp only [Bool.and_eq_true, beq_iff_eq] at hcond
    exact hcond
  refine ⟨base, ?_⟩
  intro events ag key e1 e2 hkey hag ⟨h1, h2⟩
  obtain ⟨ha1, -⟩ := base events ag key e1 h1
  obtain ⟨ha2, -⟩ := base events ag key e2 h2
  exact hag (ha1.trans ha2.symm)

/-- Witness for C10: a concrete event in a concrete session bucket carries
the bucket's agent type and key. -/
theorem claim_C10_agent_partition_witness :
    exPromptA ∈ sessionEventsSorted [exPromptA] "agent-a" "unknown" ∧
    (exPromptA.agent_type = "agent-a" ∧ sessionKey exPromptA = "unknown") :=
  ⟨List.mem_mergeSort.mpr (by decide),
   claim_C10_agent_partition.1 [exPromptA] "agent-a" "unknown" exPromptA
     (List.mem_mergeSort.mpr (by decide))⟩


/-- C6 counterexample: a log record with a non-empty attributes array but
neither `body.stringValue` nor an `event.name` attribute is NOT discarded —
`parse_log_record` returns an event with the empty string as its name. -/
theorem claim_C6_counterexample :
    exLogRecordNoName.bodyStringValue = none ∧
    (lrEntriesToAttrs [{ key := "k", value := .plain (.str "v") }]).lookup
      "event.name" = none ∧
    parse_log_record exLogRecordNoName =
      some { timestamp := none, event_name := .str "",
             attributes := [("k", .str "v")] } := by
  refine ⟨rfl, by decide, by decide⟩

/-- C6 amended: `parse_log_record` discards a record (returns nothing)
exactly when its attributes array is absent or empty; for a non-empty
attributes array it always produces an event, naming it from
`body.stringValue`, else the `event.name` attribute, else the empty
string — lacking both name sources does not discard the record and raises
no error. -/
theorem claim_C6_log_record_filter :
    (∀ lr : LogRecord,
        parse_log_record lr = none ↔
          (lr.attributes = none ∨ lr.attributes = some [])) ∧
    (∀ (ent : LREntry) (rest : List LREntry) (b : Option String)
        (t o : Option AttrValue),
        parse_log_record
          { attributes := some (ent :: rest), bodyStringValue := b,
            timeUnixNano := t, observedTimeUnixNano := o } =
          some { timestamp := t.orElse fun _ => o
                 event_name :=
                   if b.getD "" = "" then
                     ((lrEntriesToAttrs (ent :: rest)).lookup "event.name").getD (.str "")
                   else .str (b.getD "")
                 attributes := lrEntriesToAttrs (ent :: rest) }) := by
  constructor
  · intro lr
    obtain ⟨attrs, b, t, o⟩ := lr
    cases attrs with
    | none => simp [parse_log_record]
    | some l =>
      cases l with
      | nil => simp [parse_log_record]
      | cons ent rest => simp [parse_log_record]
  · intro ent rest b t o
    rfl

/-- C7: for every JSONL input, ingestion yields exactly the events of the
well-formed lines (in order) and one warning per malformed line — blank
lines contribute nothing, malformed lines never abort the remaining lines,
and both cited loaders are total. -/
theorem claim_C7_ingestion_counts :
    (∀ (lines : List RawLine) (agent ft : String) (now : ℚ),
        (loadFile lines agent ft now).1 = lines.filterMap (lineEvent agent ft now) ∧
        (loadFile lines agent ft now).1.length = lines.countP lineIsRecord ∧
        (loadFile lines agent ft now).2 = lines.countP lineIsMalformed) ∧
    (∀ (J : Type) (lines : List (CTLine J)),
        (parseJsonlCT lines).1 = lines.filterMap ctObj ∧
        (parseJsonlCT lines).1.length = lines.countP ctIsObj ∧
        (parseJsonlCT lines).2 = lines.countP ctIsMalformed) := by
  constructor
  · intro lines agent ft now
    have h := loadFile_foldl lines agent ft now ([], 0)
    have h1 : (loadFile lines agent ft now).1 =
        lines.filterMap (lineEvent agent ft now) := by
      rw [loadFile, h]; simp
    refine ⟨h1, ?_, ?_⟩
    · rw [h1, length_filterMap_lineEvent]
    · rw [loadFile, h]; simp
  · intro J lines
    have h := parseJsonlCT_foldl lines ([], 0)
    have h1 : (parseJsonlCT lines).1 = lines.filterMap ctObj := by
      rw [parseJsonlCT, h]; simp
    refine ⟨h1, ?_, ?_⟩
    · rw [h1, length_filterMap_ctObj]
    · rw [parseJsonlCT, h]; simp

/-- C8: classification is applied in the priority order prompt, response,
tool call, tool result; an event matching several heuristics is used only
by the highest-priority branch — in particular, a prompt event whose log
mentions "tool" opens a new turn with empty tool lists. -/
theorem claim_C8_priority :
    (∀ (agent : String) (st : SegState) (e : TelemetryEvent),
        isUserPrompt e = true →
        ∃ t, (stepTurn agent st e).cur = some t ∧ t.tool_calls = [] ∧
          t.tool_results = [] ∧ t.assistant_response = none ∧
          t.turn_id = st.counter + 1) ∧
    (∀ (agent : String) (st : SegState) (t : ConversationTurn)
        (e : TelemetryEvent),
        st.cur = some t → isUserPrompt e = false → isAssistantResponse e = true →
        ∃ t2, (stepTurn agent st e).cur = some t2 ∧
          t2.assistant_response = extractAssistantResponse e ∧
          t2.tool_calls = t.tool_calls ∧ t2.tool_results = t.tool_results) ∧
    (∀ (agent : String) (st : SegState) (t : ConversationTurn)
        (e : TelemetryEvent),
        st.cur = some t → isUserPrompt e = false → isAssistantResponse e = false →
        isToolCall e = true →
        ∃ t2, (stepTurn agent st e).cur = some t2 ∧
          t2.tool_calls = t.tool_calls ++ [extractToolCall e] ∧
          t2.tool_results = t.tool_results ∧
          t2.assistant_response = t.assistant_response) ∧
    (∀ (agent : String) (st : SegState) (t : ConversationTurn)
        (e : TelemetryEvent),
        st.cur = some t → isUserPrompt e = false → isAssistantResponse e = false →
        isToolCall e = false → isToolResult e = true →
        ∃ t2, (stepTurn agent st e).cur = some t2 ∧
          t2.tool_results = t.tool_results ++ [extractToolResult e] ∧
          t2.tool_calls = t.tool_calls) ∧
    (isUserPrompt exPromptTool = true ∧ isToolCall exPromptTool = true ∧
      segmentTurns "agent-a" [exPromptTool] =
        [{ turn_id := 1, agent_type := "agent-a",
           user_prompt := some (.str "build it"), timestamp := some 5 }]) := by
  refine ⟨?_, ?_, ?_, ?_, by decide, by decide, by decide⟩
  · intro agent st e h
    rw [stepTurn_prompt agent st e h]
    obtain ⟨f1, f2, f3, f4, f5, f6, f7⟩ := updateTokenUsage_fields
      { turn_id := st.counter + 1, agent_type := agent,
        user_prompt := extractUserPrompt e, timestamp := some e.timestamp } e
    exact ⟨_, rfl, f5, f6, f4, f1⟩
  · intro agent st t e hc h hr
    rw [stepTurn_response agent st t e hc h hr]
    obtain ⟨f1, f2, f3, f4, f5, f6, f7⟩ := updateTokenUsage_fields
      { t with assistant_response := extractAssistantResponse e } e
    exact ⟨_, rfl, f4, f5, f6⟩
  · intro agent st t e hc h hr htc
    rw [stepTurn_toolcall agent st t e hc h hr htc]
    obtain ⟨f1, f2, f3, f4, f5, f6, f7⟩ := updateTokenUsage_fields
      { t with tool_calls := t.tool_calls ++ [extractToolCall e] } e
    exact ⟨_, rfl, f5, f6, f4⟩
  · intro agent st t e hc h hr htc htr
    rw [stepTurn_toolresult agent st t e hc h hr htc htr]
    obtain ⟨f1, f2, f3, f4, f5, f6, f7⟩ := updateTokenUsage_fields
      { t with tool_results := t.tool_results ++ [extractToolResult e] } e
    exact ⟨_, rfl, f6, f5⟩

/-- Witness for C8: the highest-priority branch at the concrete
double-matching event (prompt attribute plus "tool" log). -/
theorem claim_C8_priority_witness :
    (isUserPrompt exPromptTool = true ∧ isToolCall exPromptTool = true) ∧
    (∃ t, (stepTurn "agent-a" ⟨none, 0, []⟩ exPromptTool).cur = some t ∧
      t.tool_calls = [] ∧ t.tool_results = [] ∧ t.assistant_response = none ∧
      t.turn_id = 0 + 1) :=
  ⟨⟨by decide, by decide⟩,
   claim_C8_priority.1 "agent-a" ⟨none, 0, []⟩ exPromptTool (by decide)⟩

/-- C9: a flow's cost estimate is exactly the sum over its turns of
`input_tokens * 0.00001 + output_tokens * 0.00003` (absent keys read as 0),
and the single turn with `input = output = 1000` costs exactly 0.04. -/
theorem claim_C9_cost_formula :
    (∀ turns : List ConversationTurn,
        (calcFlowStatistics turns).total_cost =
          (turns.map (fun t => (turnTokenVal t "input" : ℚ) * (1 / 100000) +
            (turnTokenVal t "output" : ℚ) * (3 / 100000))).sum) ∧
    (calcFlowStatistics [exTurnTok]).total_cost = 4 / 100 := by
  constructor
  · intro turns
    have h := foldl_stepFlowStats_cost turns
      { total_tokens := [], total_cost := 0, tools_used := [], error_count := 0 }
    unfold calcFlowStatistics
    rw [h, zero_add]
    rfl
  · simp [calcFlowStatistics, stepFlowStats, exTurnTok, List.lookup]
    norm_num
